import Mathlib

/-!
Shallow embedding of the qiankun "Dynamic Resource Interception and
Sandboxed Execution Layer":

* `packages/shared/src/assets-transpilers/script.ts` — the script
  transform pipeline (`transpileScript` and the continuation of its
  asynchronous fetch).
* `packages/sandbox/src/patchers/dynamicAppend/common.ts` — the mutation
  interceptor (`appendChildOrInsertBefore`, `removeChild`,
  `patchHTMLDynamicAppendPrototypeFunctions`), the app lifecycle counter
  (`calcAppCount`, `isAllAppsUnmounted`) and the stylesheet rule
  preserver (`recordStyledComponentsCSSRules`, `rebuildCSSRules`).

DOM primitives (raw `appendChild` / `insertBefore` / `removeChild`,
`Node.contains`, `parentNode`), the URL-resolution helper `getEntireUrl`
(imported from `packages/shared/src/utils`, outside the embedded
sources) and the dispatcher `transpileAssets` are external collaborators
of the embedded code; they appear as explicit function parameters, and
the theorems quantify over them.  Mutation of JS objects is rendered as
explicit state passing; `try/catch` as `Except`; the asynchronous fetch
as a pending-URL value plus an explicit continuation function.
-/

namespace Qiankun

/-! ## Script transform pipeline (`script.ts`) -/

/-- The sandbox handle, reduced to the only member the embedded code
uses: `makeEvaluateFactory(code, url)` producing the wrapped source. -/
structure Sandbox where
  makeEvaluateFactory : String → String → String

/-- `TransformerOpts` from `script.ts` (`fetch` is modelled separately,
as a pending fetch returned by `transpileScript` plus the continuation
`transpileScriptFetchContinuation`). -/
structure TransformerOpts where
  sandbox : Option Sandbox

/-- A `<script>` element, restricted to the fields `transpileScript`
touches.  `srcAttribute` is `getAttribute('src')`; `typeAttr` is
`script.type` (the empty string when absent); `datasetSrc` is
`script.dataset.src`; `connected` records whether the node is part of
the live document (never consulted by the code — that is the point of
one of the claims). -/
structure HTMLScriptElement where
  srcAttribute : Option String
  typeAttr : String
  textContent : String
  datasetSrc : Option String
  connected : Bool
deriving DecidableEq, Repr

/-- `isValidJavaScriptType` from `script.ts` lines 14–23. -/
def isValidJavaScriptType (ty : Option String) : Bool :=
  let handleTypes := ["text/javascript", "module", "application/javascript",
    "text/ecmascript", "application/ecmascript"]
  match ty with
  | none => true
  | some t => t == "" || handleTypes.contains t

/-- Synchronous part of `transpileScript` (`script.ts` lines 25–55).
`getEntireUrl` stands for the helper imported from `../utils`.  The
second component of the result is the URL of the fetch launched by the
sandboxed external-script branch (`none` when no fetch starts); its
`.then` continuation is `transpileScriptFetchContinuation`. -/
def transpileScript (getEntireUrl : String → String → String)
    (script : HTMLScriptElement) (baseURI : String) (opts : TransformerOpts) :
    HTMLScriptElement × Option String :=
  let srcAttribute := script.srcAttribute
  match opts.sandbox with
  | some sandbox =>
    match srcAttribute with
    | some src =>
      -- script.removeAttribute('src'); script.dataset.src = scriptSrc; fetch(scriptSrc)...
      let scriptSrc := getEntireUrl src baseURI
      ({ script with srcAttribute := none, datasetSrc := some scriptSrc }, some scriptSrc)
    | none =>
      if isValidJavaScriptType (some script.typeAttr) then
        let code := script.textContent
        if code ≠ "" then
          ({ script with textContent := sandbox.makeEvaluateFactory code baseURI }, none)
        else (script, none)
      else (script, none)
  | none =>
    match srcAttribute with
    | some src => ({ script with srcAttribute := some (getEntireUrl src baseURI) }, none)
    | none => (script, none)

/-- The registry of in-memory resources created through
`URL.createObjectURL`: the list of blob contents, the i-th entry being
the content behind `objectURLOf i`. -/
structure ObjectURLRegistry where
  blobs : List String
deriving DecidableEq, Repr

/-- The object URL handed out for the n-th created blob. -/
def objectURLOf (n : Nat) : String := "blob:" ++ toString n

/-- `URL.createObjectURL(new Blob([content]))`: registers the content
and returns its object URL. -/
def URL_createObjectURL (reg : ObjectURLRegistry) (content : String) :
    String × ObjectURLRegistry :=
  (objectURLOf reg.blobs.length, ⟨reg.blobs ++ [content]⟩)

/-- The fetch continuation of `transpileScript` (`script.ts` lines
41–44): given the fetched text `code`, wrap it through the sandbox and
install the resulting object URL as the script's new `src`.  It is
applied to whatever the script element's state is when the fetch
resolves. -/
def transpileScriptFetchContinuation (sandbox : Sandbox) (scriptSrc : String)
    (code : String) (script : HTMLScriptElement) (reg : ObjectURLRegistry) :
    HTMLScriptElement × ObjectURLRegistry :=
  let codeFactory := sandbox.makeEvaluateFactory code scriptSrc
  let (url, reg') := URL_createObjectURL reg codeFactory
  ({ script with srcAttribute := some url }, reg')

/-! ## App lifecycle counter (`common.ts` lines 66–92) -/

/-- The value type of `appsCounterMap`.  Counts are embedded as `Int`
so that non-negativity is a real invariant of the code, not of the
type. -/
structure AppCount where
  bootstrappingPatchCount : Int
  mountingPatchCount : Int
deriving DecidableEq, Repr

/-- `appsCounterMap : Map<string, AppCount>`, embedded as an insertion
ordered association list. -/
abbrev AppsCounterMap := List (String × AppCount)

/-- The initial (empty) `appsCounterMap`. -/
def initialAppsCounterMap : AppsCounterMap := []

/-- `Map.get`. -/
def counterMapGet (m : AppsCounterMap) (k : String) : Option AppCount :=
  (m.find? (fun p => p.1 == k)).map (fun p => p.2)

/-- `Map.set`: replaces in place if the key is present, otherwise
appends at the end (JS `Map` preserves insertion order). -/
def counterMapSet (m : AppsCounterMap) (k : String) (v : AppCount) : AppsCounterMap :=
  match m with
  | [] => [(k, v)]
  | p :: rest => if p.1 == k then (k, v) :: rest else p :: counterMapSet rest k v

inductive CalcType | increase | decrease
deriving DecidableEq, Repr

inductive PatchStatus | bootstrapping | mounting
deriving DecidableEq, Repr

/-- Read the `${status}PatchCount` field. -/
def AppCount.getStatus (c : AppCount) (status : PatchStatus) : Int :=
  match status with
  | .bootstrapping => c.bootstrappingPatchCount
  | .mounting => c.mountingPatchCount

/-- Write the `${status}PatchCount` field. -/
def AppCount.setStatus (c : AppCount) (status : PatchStatus) (v : Int) : AppCount :=
  match status with
  | .bootstrapping => { c with bootstrappingPatchCount := v }
  | .mounting => { c with mountingPatchCount := v }

/-- `calcAppCount` (`common.ts` lines 68–86). -/
def calcAppCount (m : AppsCounterMap) (appName : String) (calcType : CalcType)
    (status : PatchStatus) : AppsCounterMap :=
  let appCount := (counterMapGet m appName).getD ⟨0, 0⟩
  let appCount :=
    match calcType with
    | .increase => appCount.setStatus status (appCount.getStatus status + 1)
    | .decrease =>
      -- bootstrap patch just called once but its freer will be called multiple times
      if appCount.getStatus status > 0 then
        appCount.setStatus status (appCount.getStatus status - 1)
      else appCount
  counterMapSet m appName appCount

/-- `isAllAppsUnmounted` (`common.ts` lines 88–92). -/
def isAllAppsUnmounted (m : AppsCounterMap) : Bool :=
  m.all (fun p => p.2.bootstrappingPatchCount == 0 && p.2.mountingPatchCount == 0)

/-- One call of `calcAppCount`, for reasoning about call sequences. -/
structure CalcOp where
  appName : String
  calcType : CalcType
  status : PatchStatus

/-- Run a sequence of `calcAppCount` calls from the initial empty map. -/
def runCalcOps (ops : List CalcOp) : AppsCounterMap :=
  ops.foldl (fun m op => calcAppCount m op.appName op.calcType op.status)
    initialAppsCounterMap

/-- The count currently associated with `(appName, status)` (0 when the
app is untracked, matching the `|| {0,0}` default). -/
def getCount (m : AppsCounterMap) (appName : String) (status : PatchStatus) : Int :=
  ((counterMapGet m appName).getD ⟨0, 0⟩).getStatus status

/-! ## Mutation interceptor (`common.ts` lines 9–300) -/

def SCRIPT_TAG_NAME : String := "SCRIPT"
def LINK_TAG_NAME : String := "LINK"
def STYLE_TAG_NAME : String := "STYLE"

inductive DynamicDomMutationTarget | head | body
deriving DecidableEq, Repr

/-- A DOM element as seen by the interceptor: an identity, a `tagName`
and the `styleElementTargetSymbol` property the style/link branch
attaches. -/
structure Element where
  eid : Nat
  tagName : String
  styleElementTarget : Option DynamicDomMutationTarget := none
deriving DecidableEq, Repr

/-- ASCII uppercasing of one character, as
`String.prototype.toUpperCase` acts on tag names. -/
def charToUpper (c : Char) : Char :=
  if c.isLower then Char.ofNat (c.toNat - 32) else c

/-- `tagName?.toUpperCase()` — executable ASCII uppercasing. -/
def toUpperCase (s : String) : String := ⟨s.data.map charToUpper⟩

/-- `isHijackingTag` (`common.ts` lines 45–51). -/
def isHijackingTag (tagName : Option String) : Bool :=
  tagName.map toUpperCase == some LINK_TAG_NAME ||
  tagName.map toUpperCase == some STYLE_TAG_NAME ||
  tagName.map toUpperCase == some SCRIPT_TAG_NAME

/-- `SandboxConfig` as consumed by the interceptor: `getContainer` may
throw (errors of type `ε`), `dynamicStyleSheetElements` is the dynamic
stylesheet registry and `sandbox` feeds the script transform. -/
structure SandboxConfig (ε : Type) where
  getContainer : Unit → Except ε Element
  dynamicStyleSheetElements : List Element
  sandbox : Option Sandbox

/-- The `opts` record of `getOverwrittenAppendChildOrInsertBefore`
(`common.ts` lines 118–123).  `rawDOMAppendOrInsertBefore` is the
captured original operation, modelled as a transformer of an abstract
document state `δ` taking `(this, newChild, refChild)` and returning
the new document plus the operation's result node. -/
structure AppendOpts (δ ε : Type) where
  rawDOMAppendOrInsertBefore : δ → Element → Element → Option Element → δ × Element
  isInvokedByMicroApp : Element → Bool
  getSandboxConfig : Element → Except ε (SandboxConfig ε)
  target : DynamicDomMutationTarget

/-- Result of one intercepted insertion: the new document state, the
returned node, and the state of the owning app's
`dynamicStyleSheetElements` after the call (`none` when the registry
was never touched). -/
structure InsertOutcome (δ : Type) where
  dom : δ
  result : Element
  updatedStyleSheets : Option (List Element)

/-- The patched `appendChild`/`insertBefore` body,
`appendChildOrInsertBefore` (`common.ts` lines 124–176).  `contains`
embeds `Node.contains` on the abstract document (`null` arguments give
a `none` reference); `transpileAssets` stands for the dispatcher
imported from `@qiankunjs/shared` (outside the embedded sources), which
returns the node actually inserted for a script.  Errors of the
attribution oracle or of `getContainer` propagate — this path has no
`try/catch`. -/
def appendChildOrInsertBefore {δ ε : Type} (opts : AppendOpts δ ε)
    (contains : δ → Element → Option Element → Bool)
    (transpileAssets : Element → Option Sandbox → Element)
    (dom : δ) (thisArg : Element) (newChild : Element)
    (refChild : Option Element) : Except ε (InsertOutcome δ) :=
  let element := newChild
  if !(isHijackingTag (some element.tagName)) || !(opts.isInvokedByMicroApp element) then
    let (dom', r) := opts.rawDOMAppendOrInsertBefore dom thisArg element refChild
    .ok ⟨dom', r, none⟩
  else if element.tagName ≠ "" then
    match opts.getSandboxConfig element with
    | .error e => .error e
    | .ok containerConfig =>
      if element.tagName == LINK_TAG_NAME || element.tagName == STYLE_TAG_NAME then
        -- Object.defineProperty(stylesheetElement, styleElementTargetSymbol, ...)
        let stylesheetElement := { element with styleElementTarget := some opts.target }
        match containerConfig.getContainer () with
        | .error e => .error e
        | .ok container =>
          let mountDOM := container
          let updated := containerConfig.dynamicStyleSheetElements ++ [stylesheetElement]
          let referenceNode := if contains dom mountDOM refChild then refChild else none
          let (dom', r) := opts.rawDOMAppendOrInsertBefore dom mountDOM stylesheetElement referenceNode
          .ok ⟨dom', r, some updated⟩
      else if element.tagName == SCRIPT_TAG_NAME then
        match containerConfig.getContainer () with
        | .error e => .error e
        | .ok container =>
          let mountDOM := container
          let referenceNode := if contains dom mountDOM refChild then refChild else none
          let node := transpileAssets element containerConfig.sandbox
          let (dom', r) := opts.rawDOMAppendOrInsertBefore dom mountDOM node referenceNode
          .ok ⟨dom', r, none⟩
      else
        let (dom', r) := opts.rawDOMAppendOrInsertBefore dom thisArg element refChild
        .ok ⟨dom', r, none⟩
  else
    let (dom', r) := opts.rawDOMAppendOrInsertBefore dom thisArg element refChild
    .ok ⟨dom', r, none⟩

/-- Result of one intercepted removal: the `console.warn` log, the new
document state, the app's `dynamicStyleSheetElements` after the call
(`none` when untouched) and the returned/raised result. -/
structure RemoveOutcome (δ ε : Type) where
  log : List ε
  dom : δ
  updatedStyleSheets : Option (List Element)
  result : Except ε Element

/-- The patched `removeChild` body, `removeChild` inside
`getNewRemoveChild` (`common.ts` lines 189–233).  `rawRemoveChild`
takes its `this` argument (possibly `null`, as in the
`attachedElement.parentNode` call) and the child; it may throw but
always yields a document state.  `dynamicScriptAttachedCommentMap` and
`dynamicLinkAttachedInlineStyleMap` are the module-level weak maps,
whose writers live outside the embedded sources.  The whole hijacked
path runs in a `try` whose `catch` logs the error and falls through to
delegating the removal on the original target. -/
def removeChild {δ ε : Type}
    (rawRemoveChild : δ → Option Element → Element → δ × Except ε Element)
    (containerConfigGetter : Element → Except ε (SandboxConfig ε))
    (isInvokedByMicroApp : Element → Bool)
    (contains : δ → Element → Option Element → Bool)
    (parentNode : δ → Element → Option Element)
    (dynamicScriptAttachedCommentMap : Element → Option Element)
    (dynamicLinkAttachedInlineStyleMap : Element → Option Element)
    (dom : δ) (thisArg : Element) (child : Element) : RemoveOutcome δ ε :=
  if !(isHijackingTag (some child.tagName)) || !(isInvokedByMicroApp child) then
    let (dom', r) := rawRemoveChild dom (some thisArg) child
    ⟨[], dom', none, r⟩
  else
    match containerConfigGetter child with
    | .error e =>
      let (dom', r) := rawRemoveChild dom (some thisArg) child
      ⟨[e], dom', none, r⟩
    | .ok config =>
      let attachedElement : Element :=
        if child.tagName == STYLE_TAG_NAME || child.tagName == LINK_TAG_NAME then
          (dynamicLinkAttachedInlineStyleMap child).getD child
        else if child.tagName == SCRIPT_TAG_NAME then
          (dynamicScriptAttachedCommentMap child).getD child
        else child
      -- try to remove the dynamic style sheet (indexOf + splice)
      let updatedStyleSheets : Option (List Element) :=
        if child.tagName == STYLE_TAG_NAME || child.tagName == LINK_TAG_NAME then
          some (config.dynamicStyleSheetElements.erase attachedElement)
        else none
      match config.getContainer () with
      | .error e =>
        let (dom', r) := rawRemoveChild dom (some thisArg) child
        ⟨[e], dom', updatedStyleSheets, r⟩
      | .ok appWrapper =>
        let container := appWrapper
        -- container might have been removed while app unmounting if the removeChild action was async
        if contains dom container (some attachedElement) then
          let (dom', r) := rawRemoveChild dom (parentNode dom attachedElement) attachedElement
          match r with
          | .ok removed => ⟨[], dom', updatedStyleSheets, .ok removed⟩
          | .error e =>
            let (dom2, r2) := rawRemoveChild dom' (some thisArg) child
            ⟨[e], dom2, updatedStyleSheets, r2⟩
        else
          let (dom', r) := rawRemoveChild dom (some thisArg) child
          ⟨[], dom', updatedStyleSheets, r⟩

/-! ## Patch installation (`common.ts` lines 239–300)

At the function-identity level a prototype slot holds either an
original function (whose `overwrittenSymbol` property is unset) or a
wrapper produced by `getOverwrittenAppendChildOrInsertBefore` /
`getNewRemoveChild`, which carries `overwrittenSymbol = true` and
closes over the function it replaced. -/

/-- A function installed in a prototype slot: `raw i` is an original
(unwrapped) browser function, `overwritten f` a wrapper around `f`
marked with `overwrittenSymbol`. -/
inductive ProtoFn
  | raw (i : Nat)
  | overwritten (f : ProtoFn)
deriving DecidableEq, Repr

/-- Reading the `overwrittenSymbol` marker. -/
def ProtoFn.isOverwritten : ProtoFn → Bool
  | .raw _ => false
  | .overwritten _ => true

/-- The five prototype slots the patcher touches:
`HTMLHeadElement.prototype.{appendChild, insertBefore, removeChild}`
and `HTMLBodyElement.prototype.{appendChild, removeChild}`. -/
structure PrototypeState where
  headAppendChild : ProtoFn
  bodyAppendChild : ProtoFn
  headInsertBefore : ProtoFn
  headRemoveChild : ProtoFn
  bodyRemoveChild : ProtoFn
deriving DecidableEq, Repr

/-- `patchHTMLDynamicAppendPrototypeFunctions` (`common.ts` lines
239–300): captures the current prototype functions, wraps them unless
the `overwrittenSymbol` guard says they are already wrappers, and
returns the new prototype state together with the `unpatch` closure,
which writes the captured functions back regardless of the state it is
applied to. -/
def patchHTMLDynamicAppendPrototypeFunctions (s : PrototypeState) :
    PrototypeState × (PrototypeState → PrototypeState) :=
  let rawHeadAppendChild := s.headAppendChild
  let rawBodyAppendChild := s.bodyAppendChild
  let rawHeadInsertBefore := s.headInsertBefore
  -- Just overwrite it while it have not been overwritten
  let s1 :=
    if rawHeadAppendChild.isOverwritten ≠ true ∧ rawBodyAppendChild.isOverwritten ≠ true ∧
        rawHeadInsertBefore.isOverwritten ≠ true then
      { s with
        headAppendChild := .overwritten rawHeadAppendChild
        bodyAppendChild := .overwritten rawBodyAppendChild
        headInsertBefore := .overwritten rawHeadInsertBefore }
    else s
  let rawHeadRemoveChild := s1.headRemoveChild
  let rawBodyRemoveChild := s1.bodyRemoveChild
  -- Just overwrite it while it have not been overwritten
  let s2 :=
    if rawHeadRemoveChild.isOverwritten ≠ true ∧ rawBodyRemoveChild.isOverwritten ≠ true then
      { s1 with
        headRemoveChild := .overwritten rawHeadRemoveChild
        bodyRemoveChild := .overwritten rawBodyRemoveChild }
    else s1
  (s2, fun _ =>
    { headAppendChild := rawHeadAppendChild
      bodyAppendChild := rawBodyAppendChild
      headInsertBefore := rawHeadInsertBefore
      headRemoveChild := rawHeadRemoveChild
      bodyRemoveChild := rawBodyRemoveChild })

/-- A prototype state holding only original, unwrapped functions. -/
def PrototypeState.unwrapped (s : PrototypeState) : Prop :=
  s.headAppendChild.isOverwritten = false ∧ s.bodyAppendChild.isOverwritten = false ∧
  s.headInsertBefore.isOverwritten = false ∧ s.headRemoveChild.isOverwritten = false ∧
  s.bodyRemoveChild.isOverwritten = false

instance (s : PrototypeState) : Decidable s.unwrapped := by
  unfold PrototypeState.unwrapped; infer_instance

/-! ## Stylesheet rule preserver (`common.ts` lines 53–64, 94–116,
302–328) -/

/-- A `<style>`/`<link>` node as seen by the rule preserver.
`isHTMLStyleElement` embeds the `instanceof HTMLStyleElement` test;
`sheet` is `element.sheet` with its `cssRules` rendered as the list of
rule texts (`none` when the node has no associated stylesheet). -/
structure StyleElement where
  sid : Nat
  isHTMLStyleElement : Bool
  textContent : String
  sheet : Option (List String)
deriving DecidableEq, Repr

/-- `styledComponentCSSRulesMap : WeakMap<HTMLStyleElement, CSSRuleList>`,
keyed by node identity, values being the captured rule texts. -/
abbrev CSSRulesMap := List (Nat × List String)

/-- `getStyledElementCSSRules` (`common.ts` lines 114–116). -/
def getStyledElementCSSRules (m : CSSRulesMap) (styledElement : StyleElement) :
    Option (List String) :=
  (m.find? (fun p => p.1 == styledElement.sid)).map (fun p => p.2)

/-- `isStyledComponentsLike` (`common.ts` lines 59–64): no text content,
but a non-empty live rule list or a previously preserved one.  The
module-level map is passed explicitly. -/
def isStyledComponentsLike (m : CSSRulesMap) (element : StyleElement) : Bool :=
  element.textContent == "" &&
  (((element.sheet.map List.length).getD 0 != 0) ||
    (((getStyledElementCSSRules m element).map List.length).getD 0 != 0))

/-- `WeakMap.set` on `styledComponentCSSRulesMap`. -/
def cssRulesMapSet (m : CSSRulesMap) (k : Nat) (v : List String) : CSSRulesMap :=
  if m.any (fun p => p.1 == k) then
    m.map (fun p => if p.1 == k then (k, v) else p)
  else m ++ [(k, v)]

/-- `recordStyledComponentsCSSRules` (`common.ts` lines 98–112). -/
def recordStyledComponentsCSSRules (styleElements : List StyleElement)
    (m : CSSRulesMap) : CSSRulesMap :=
  styleElements.foldl
    (fun m styleElement =>
      if styleElement.isHTMLStyleElement && isStyledComponentsLike m styleElement then
        match styleElement.sheet with
        | some rules => cssRulesMapSet m styleElement.sid rules
        | none => m
      else m)
    m

/-- A thrown DOM error in the rule-replay path (`insertRule` invoked
through a `null` sheet). -/
inductive DomErr | typeError
deriving DecidableEq, Repr

/-- The `for` loop of `rebuildCSSRules` (`common.ts` lines 319–323):
`insertRule(cssRule.cssText, cssRules.length)` appends each preserved
rule text at the end of the live sheet; touching a missing sheet
throws. -/
def insertRulesAppending (sheet : Option (List String)) :
    List String → Except DomErr (Option (List String))
  | [] => .ok sheet
  | r :: rs =>
    match sheet with
    | none => .error .typeError
    | some live => insertRulesAppending (some (live ++ [r])) rs

/-- `rebuildCSSRules` (`common.ts` lines 302–328).  `reAppendElement`
reports whether the caller managed to re-append the element; the
elements in the input list carry their post-reappend `sheet` state.  An
exception thrown while replaying one element aborts the `forEach`. -/
def rebuildCSSRules (styleSheetElements : List StyleElement)
    (reAppendElement : StyleElement → Bool) (m : CSSRulesMap) :
    Except DomErr (List StyleElement) :=
  match styleSheetElements with
  | [] => .ok []
  | stylesheetElement :: rest =>
    -- re-append the dynamic stylesheet to sub-app container
    let appendSuccess := reAppendElement stylesheetElement
    if appendSuccess &&
        (stylesheetElement.isHTMLStyleElement && isStyledComponentsLike m stylesheetElement) then
      match getStyledElementCSSRules m stylesheetElement with
      | some cssRules =>
        match insertRulesAppending stylesheetElement.sheet cssRules with
        | .error e => .error e
        | .ok sheet' =>
          match rebuildCSSRules rest reAppendElement m with
          | .error e => .error e
          | .ok rest' => .ok ({ stylesheetElement with sheet := sheet' } :: rest')
      | none =>
        match rebuildCSSRules rest reAppendElement m with
        | .error e => .error e
        | .ok rest' => .ok (stylesheetElement :: rest')
    else
      match rebuildCSSRules rest reAppendElement m with
      | .error e => .error e
      | .ok rest' => .ok (stylesheetElement :: rest')

/-! ## Theorems -/

/-- C1 (counterexample): at a concrete detached script node
(`connected = false`, i.e. the owning container was removed between
fetch start and fetch resolution), the fetch continuation still
installs the sandbox-wrapped code as the node's new `src` and leaves
the created in-memory resource registered — it performs no attachment
re-check, refuting "installs nothing, and leaves no in-memory resource
outstanding". -/
theorem transpileScript_stale_fetch_not_discarded :
    (let sandbox : Sandbox := ⟨fun code url => "factory(" ++ code ++ "," ++ url ++ ")"⟩
     let script : HTMLScriptElement := ⟨none, "", "", some "https://host/app/a.js", false⟩
     let r := transpileScriptFetchContinuation sandbox "https://host/app/a.js" "rawcode"
       script ⟨[]⟩
     script.connected = false ∧ r.1.srcAttribute = some "blob:0" ∧
       r.2.blobs = ["factory(rawcode,https://host/app/a.js)"]) := by
  decide

/-- C1 (amended): the fetch continuation of `transpileScript` installs
the sandbox-wrapped code exactly once per fetch resolution — it sets
the node's `src` to the object URL of one freshly created in-memory
resource holding the wrapped code — but it does so unconditionally:
the result does not depend on the node's attachment state (`connected`
is neither consulted nor changed), and the created resource stays in
the registry (it is never revoked). -/
theorem transpileScriptFetchContinuation_installs_unconditionally
    (sandbox : Sandbox) (scriptSrc code : String) (script : HTMLScriptElement)
    (reg : ObjectURLRegistry) :
    transpileScriptFetchContinuation sandbox scriptSrc code script reg =
      ({ script with srcAttribute := some (objectURLOf reg.blobs.length) },
       ⟨reg.blobs ++ [sandbox.makeEvaluateFactory code scriptSrc]⟩) := by
  rfl

/-- C4: for a script node carrying a `src` attribute, processed with a
sandbox supplied, `transpileScript` synchronously removes the `src`
attribute, records the resolved absolute URL in `dataset.src`, and
launches a fetch of that URL; when the fetch resolves, the continuation
points the node's `src` at a fresh in-memory resource whose content is
the sandbox-wrapped form of the fetched code. -/
theorem transpileScript_external_sandbox_spec
    (getEntireUrl : String → String → String) (sandbox : Sandbox)
    (script : HTMLScriptElement) (baseURI src : String)
    (h : script.srcAttribute = some src) :
    let scriptSrc := getEntireUrl src baseURI
    let r := transpileScript getEntireUrl script baseURI ⟨some sandbox⟩
    r.1.srcAttribute = none ∧ r.1.datasetSrc = some scriptSrc ∧ r.2 = some scriptSrc ∧
    ∀ (code : String) (reg : ObjectURLRegistry),
      let r2 := transpileScriptFetchContinuation sandbox scriptSrc code r.1 reg
      r2.1.srcAttribute = some (objectURLOf reg.blobs.length) ∧
      r2.2.blobs = reg.blobs ++ [sandbox.makeEvaluateFactory code scriptSrc] := by
  simp [transpileScript, transpileScriptFetchContinuation, URL_createObjectURL, h]

/-- Witness for C4 at the spec's own example: source reference
`"./a.js"`, base URL `"https://host/app/"`, resolver appending the
relative part to the base. -/
theorem transpileScript_external_sandbox_spec_witness :
    (let getEntireUrl : String → String → String := fun u b => b ++ u.drop 2
     let sandbox : Sandbox := ⟨fun code url => "factory(" ++ code ++ "," ++ url ++ ")"⟩
     let script : HTMLScriptElement := ⟨some "./a.js", "", "", none, true⟩
     let scriptSrc := getEntireUrl "./a.js" "https://host/app/"
     let r := transpileScript getEntireUrl script "https://host/app/" ⟨some sandbox⟩
     r.1.srcAttribute = none ∧ r.1.datasetSrc = some scriptSrc ∧ r.2 = some scriptSrc ∧
     ∀ (code : String) (reg : ObjectURLRegistry),
       let r2 := transpileScriptFetchContinuation sandbox scriptSrc code r.1 reg
       r2.1.srcAttribute = some (objectURLOf reg.blobs.length) ∧
       r2.2.blobs = reg.blobs ++ [sandbox.makeEvaluateFactory code scriptSrc]) :=
  transpileScript_external_sandbox_spec (fun u b => b ++ u.drop 2)
    ⟨fun code url => "factory(" ++ code ++ "," ++ url ++ ")"⟩
    ⟨some "./a.js", "", "", none, true⟩ "https://host/app/" "./a.js" rfl

/-- C5 (counterexample): a script node with declared type
`"text/template"` (not a recognized executable type) and source
reference `"./a.js"`, processed with a sandbox, does not keep its
source reference untouched — the transform removes the attribute and
starts a fetch, refuting "never transforms it ... whether it is inline
or references an external resource". -/
theorem transpileScript_nonexecutable_external_transformed :
    (let script : HTMLScriptElement := ⟨some "./a.js", "text/template", "", none, true⟩
     let r := transpileScript (fun u b => b ++ u.drop 2) script "https://host/app/"
       ⟨some ⟨fun code _ => code⟩⟩
     isValidJavaScriptType (some script.typeAttr) = false ∧
       r.1.srcAttribute ≠ script.srcAttribute ∧ r.2 ≠ none) := by
  refine ⟨by decide, by decide, by decide⟩

/-- C5 (amended): only inline scripts enjoy the frame property — a
script node with no source reference and a non-executable declared
type is left completely untouched (no text change, no fetch), with or
without a sandbox; a node with a source reference is processed
regardless of its declared type. -/
theorem transpileScript_nonexecutable_inline_untouched
    (getEntireUrl : String → String → String) (opts : TransformerOpts)
    (script : HTMLScriptElement) (baseURI : String)
    (h1 : script.srcAttribute = none)
    (h2 : isValidJavaScriptType (some script.typeAttr) = false) :
    transpileScript getEntireUrl script baseURI opts = (script, none) := by
  cases hsb : opts.sandbox with
  | none => simp [transpileScript, hsb, h1]
  | some sandbox => simp [transpileScript, hsb, h1, h2]

/-- Witness for the amended C5 at a concrete inline data-island
script. -/
theorem transpileScript_nonexecutable_inline_untouched_witness :
    transpileScript (fun u b => b ++ u) ⟨none, "text/template", "<data>", none, true⟩
      "https://host/" ⟨some ⟨fun code _ => code⟩⟩
      = (⟨none, "text/template", "<data>", none, true⟩, none) :=
  transpileScript_nonexecutable_inline_untouched (fun u b => b ++ u)
    ⟨some ⟨fun code _ => code⟩⟩ ⟨none, "text/template", "<data>", none, true⟩
    "https://host/" rfl (by decide)

/-- C10: `isAllAppsUnmounted` on the empty counter registry — the
initial process state, before any `calcAppCount` call — returns `true`
(the universal quantification over tracked apps is vacuous). -/
theorem isAllAppsUnmounted_initial : isAllAppsUnmounted initialAppsCounterMap = true := rfl

/-! ### Counter registry lemmas -/

theorem counterMapGet_set_self (k : String) (v : AppCount) :
    ∀ m : AppsCounterMap, counterMapGet (counterMapSet m k v) k = some v := by
  intro m
  induction m with
  | nil => simp [counterMapSet, counterMapGet]
  | cons p rest ih =>
    by_cases h : p.1 == k
    · simp [counterMapSet, h, counterMapGet]
    · simpa [counterMapSet, h, counterMapGet] using ih

theorem counterMapGet_set_other (k k' : String) (v : AppCount) (hk : (k' == k) = false) :
    ∀ m : AppsCounterMap, counterMapGet (counterMapSet m k v) k' = counterMapGet m k' := by
  have h2 : ¬ k' = k := by simpa using hk
  have hkk' : (k == k') = false := by
    simp only [beq_eq_false_iff_ne, ne_eq]
    exact fun e => h2 e.symm
  intro m
  induction m with
  | nil => simp [counterMapSet, counterMapGet, hkk']
  | cons p rest ih =>
    by_cases h : p.1 == k
    · have h1 : p.1 = k := by simpa using h
      have hp : (p.1 == k') = false := by
        simp only [beq_eq_false_iff_ne, ne_eq, h1]
        exact fun e => h2 e.symm
      simp [counterMapSet, h, counterMapGet, hp, hkk']
    · by_cases hp : p.1 == k'
      · simp [counterMapSet, h, counterMapGet, hp]
      · simpa [counterMapSet, h, counterMapGet, hp] using ih

theorem AppCount.getStatus_setStatus_same (c : AppCount) (st : PatchStatus) (v : Int) :
    (c.setStatus st v).getStatus st = v := by
  cases st <;> rfl

/-- Membership in a map after `set`: every entry is an old entry or the
newly written pair. -/
theorem mem_counterMapSet {k : String} {v : AppCount} {p : String × AppCount} :
    ∀ {m : AppsCounterMap}, p ∈ counterMapSet m k v → p ∈ m ∨ p = (k, v) := by
  intro m
  induction m with
  | nil => simp [counterMapSet]
  | cons q rest ih =>
    by_cases h : q.1 == k
    · intro hmem
      simp [counterMapSet, h] at hmem
      rcases hmem with h1 | h1
      · exact Or.inr h1
      · exact Or.inl (List.mem_cons_of_mem _ h1)
    · intro hmem
      simp [counterMapSet, h] at hmem
      rcases hmem with h1 | h1
      · exact Or.inl (by simp [h1])
      · rcases ih h1 with h2 | h2
        · exact Or.inl (List.mem_cons_of_mem _ h2)
        · exact Or.inr h2

/-- All tracked counters are non-negative. -/
def CounterMapNonneg (m : AppsCounterMap) : Prop :=
  ∀ p ∈ m, 0 ≤ p.2.bootstrappingPatchCount ∧ 0 ≤ p.2.mountingPatchCount

theorem counterMapGet_nonneg {m : AppsCounterMap} (hm : CounterMapNonneg m)
    (k : String) :
    0 ≤ ((counterMapGet m k).getD ⟨0, 0⟩).bootstrappingPatchCount ∧
    0 ≤ ((counterMapGet m k).getD ⟨0, 0⟩).mountingPatchCount := by
  unfold counterMapGet
  cases hf : m.find? (fun p => p.1 == k) with
  | none => simp
  | some p =>
    have hp : p ∈ m := List.mem_of_find?_eq_some hf
    simpa using hm p hp

theorem calcAppCount_preserves_nonneg {m : AppsCounterMap} (hm : CounterMapNonneg m)
    (a : String) (t : CalcType) (st : PatchStatus) :
    CounterMapNonneg (calcAppCount m a t st) := by
  intro p hp
  unfold calcAppCount at hp
  rcases mem_counterMapSet hp with h | h
  · exact hm p h
  · subst h
    obtain ⟨hb, hmo⟩ := counterMapGet_nonneg hm a
    rcases hg : (counterMapGet m a).getD ⟨0, 0⟩ with ⟨cb, cm⟩
    rw [hg] at hb hmo
    simp only at hb hmo
    cases t <;> cases st <;>
      simp only [hg, AppCount.setStatus, AppCount.getStatus] <;>
      constructor <;> (try split) <;> simp_all <;> omega

theorem runCalcOps_nonneg (ops : List CalcOp) : CounterMapNonneg (runCalcOps ops) := by
  have h : ∀ (l : List CalcOp) (m : AppsCounterMap), CounterMapNonneg m →
      CounterMapNonneg
        (l.foldl (fun m op => calcAppCount m op.appName op.calcType op.status) m) := by
    intro l
    induction l with
    | nil => intro m hm; exact hm
    | cons op rest ih =>
      intro m hm
      exact ih _ (calcAppCount_preserves_nonneg hm op.appName op.calcType op.status)
  exact h ops initialAppsCounterMap (by intro p hp; simp [initialAppsCounterMap] at hp)

/-- C3: (a) along any sequence of `calcAppCount` calls from the initial
state no tracked counter ever becomes negative; (b) `increase` adds 1
to the addressed counter; (c) `decrease` subtracts 1 exactly when the
current value is strictly positive; (d) a `decrease` on a non-positive
counter changes no counter at all; (e) `isAllAppsUnmounted` is `true`
iff every tracked app has both its bootstrapping and mounting counters
equal to 0. -/
theorem calcAppCount_spec :
    (∀ ops : List CalcOp, ∀ p ∈ runCalcOps ops,
      0 ≤ p.2.bootstrappingPatchCount ∧ 0 ≤ p.2.mountingPatchCount) ∧
    (∀ (m : AppsCounterMap) (a : String) (st : PatchStatus),
      getCount (calcAppCount m a .increase st) a st = getCount m a st + 1) ∧
    (∀ (m : AppsCounterMap) (a : String) (st : PatchStatus),
      getCount (calcAppCount m a .decrease st) a st =
        if 0 < getCount m a st then getCount m a st - 1 else getCount m a st) ∧
    (∀ (m : AppsCounterMap) (a : String) (st : PatchStatus), ¬ 0 < getCount m a st →
      ∀ (a' : String) (st' : PatchStatus),
        getCount (calcAppCount m a .decrease st) a' st' = getCount m a' st') ∧
    (∀ m : AppsCounterMap, isAllAppsUnmounted m = true ↔
      ∀ p ∈ m, p.2.bootstrappingPatchCount = 0 ∧ p.2.mountingPatchCount = 0) := by
  refine ⟨fun ops => runCalcOps_nonneg ops, ?_, ?_, ?_, ?_⟩
  · intro m a st
    unfold calcAppCount getCount
    rw [counterMapGet_set_self]
    simp [AppCount.getStatus_setStatus_same]
  · intro m a st
    show ((counterMapGet (counterMapSet m a
        (if ((counterMapGet m a).getD ⟨0, 0⟩).getStatus st > 0 then
          ((counterMapGet m a).getD ⟨0, 0⟩).setStatus st
            (((counterMapGet m a).getD ⟨0, 0⟩).getStatus st - 1)
        else (counterMapGet m a).getD ⟨0, 0⟩)) a).getD ⟨0, 0⟩).getStatus st = _
    by_cases hx : ((counterMapGet m a).getD ⟨0, 0⟩).getStatus st > 0
    · rw [if_pos hx, counterMapGet_set_self]
      simp [AppCount.getStatus_setStatus_same, getCount, if_pos hx]
    · rw [if_neg hx, counterMapGet_set_self]
      simp [getCount]
      rw [if_neg hx]
  · intro m a st h a' st'
    have hx : ¬ ((counterMapGet m a).getD ⟨0, 0⟩).getStatus st > 0 := h
    show ((counterMapGet (counterMapSet m a
        (if ((counterMapGet m a).getD ⟨0, 0⟩).getStatus st > 0 then
          ((counterMapGet m a).getD ⟨0, 0⟩).setStatus st
            (((counterMapGet m a).getD ⟨0, 0⟩).getStatus st - 1)
        else (counterMapGet m a).getD ⟨0, 0⟩)) a').getD ⟨0, 0⟩).getStatus st' =
      getCount m a' st'
    rw [if_neg hx]
    by_cases hk : (a' == a) = true
    · have ha : a' = a := by simpa using hk
      subst ha
      rw [counterMapGet_set_self]
      simp [getCount]
    · rw [counterMapGet_set_other a a' _ (by simpa using hk)]
      rfl
  · intro m
    simp [isAllAppsUnmounted, List.all_eq_true]

/-- Witness for C3: concrete uses of each counter fact. -/
theorem calcAppCount_spec_witness :
    getCount (calcAppCount [] "app-a" .increase .mounting) "app-a" .mounting =
      getCount ([] : AppsCounterMap) "app-a" .mounting + 1 ∧
    getCount (calcAppCount [("app-a", ⟨0, 5⟩)] "app-a" .decrease .bootstrapping)
      "app-a" .mounting = 5 ∧
    isAllAppsUnmounted [("app-a", ⟨0, 0⟩), ("app-b", ⟨0, 0⟩)] = true := by
  refine ⟨calcAppCount_spec.2.1 [] "app-a" .mounting, ?_, ?_⟩
  · have h := calcAppCount_spec.2.2.2.1 [("app-a", ⟨0, 5⟩)] "app-a" .bootstrapping
      (by decide) "app-a" .mounting
    rw [h]; decide
  · exact (calcAppCount_spec.2.2.2.2 _).mpr (by decide)

/-! ### Patch installation theorems -/

/-- C2 (counterexample): starting from unwrapped prototypes, install
twice and call the unpatch returned by the *second* installation — the
prototypes are left holding the wrapped (marked) functions, not the
originals, because the no-op second call captured the already-patched
functions as its "raw" set.  This refutes "calling any one returned
unpatch function once fully restores the original, unwrapped ...
behavior ... regardless of how many times the installer was
invoked". -/
theorem patch_second_unpatch_not_original :
    (let s0 : PrototypeState := ⟨.raw 0, .raw 1, .raw 2, .raw 3, .raw 4⟩
     let p1 := patchHTMLDynamicAppendPrototypeFunctions s0
     let p2 := patchHTMLDynamicAppendPrototypeFunctions p1.1
     p2.2 p2.1 ≠ s0 ∧ (p2.2 p2.1).headAppendChild.isOverwritten = true ∧
       (p2.2 p2.1).bodyRemoveChild.isOverwritten = true) := by
  decide

/-- C2 (amended): from an unwrapped prototype state, install once —
every one of the five entry points is wrapped exactly once; a second
install is a no-op (guarded by the marker on the installed functions);
and the unpatch returned by the *first* installation restores the
original, unwrapped functions on both shared regions, no matter what
state it is applied to.  (The unpatch of a later no-op installation
restores only the functions captured at its call time, i.e. the
patched ones — see the counterexample.) -/
theorem patch_unwrapped_eq (s : PrototypeState) (h : s.unwrapped) :
    patchHTMLDynamicAppendPrototypeFunctions s =
      ({ headAppendChild := .overwritten s.headAppendChild,
         bodyAppendChild := .overwritten s.bodyAppendChild,
         headInsertBefore := .overwritten s.headInsertBefore,
         headRemoveChild := .overwritten s.headRemoveChild,
         bodyRemoveChild := .overwritten s.bodyRemoveChild },
       fun _ => s) := by
  obtain ⟨h1, h2, h3, h4, h5⟩ := h
  unfold patchHTMLDynamicAppendPrototypeFunctions
  dsimp only
  split
  · split
    · rfl
    · next hc2 => exact absurd ⟨by simp [h4], by simp [h5]⟩ hc2
  · next hc1 => exact absurd ⟨by simp [h1], by simp [h2], by simp [h3]⟩ hc1

theorem patch_overwritten_noop (s : PrototypeState)
    (hA : s.headAppendChild.isOverwritten = true)
    (hR : s.headRemoveChild.isOverwritten = true) :
    patchHTMLDynamicAppendPrototypeFunctions s = (s, fun _ => s) := by
  unfold patchHTMLDynamicAppendPrototypeFunctions
  dsimp only
  split
  · next hc1 => exact absurd hA (by simpa using hc1.1)
  · split
    · next hc2 => exact absurd hR (by simpa using hc2.1)
    · rfl

theorem patch_idempotent_first_unpatch_restores (s : PrototypeState)
    (h : s.unwrapped) :
    let p1 := patchHTMLDynamicAppendPrototypeFunctions s
    let p2 := patchHTMLDynamicAppendPrototypeFunctions p1.1
    p1.1 = { headAppendChild := .overwritten s.headAppendChild,
             bodyAppendChild := .overwritten s.bodyAppendChild,
             headInsertBefore := .overwritten s.headInsertBefore,
             headRemoveChild := .overwritten s.headRemoveChild,
             bodyRemoveChild := .overwritten s.bodyRemoveChild } ∧
    p2.1 = p1.1 ∧ (∀ t : PrototypeState, p1.2 t = s) := by
  have e1 := patch_unwrapped_eq s h
  dsimp only
  rw [e1]
  refine ⟨rfl, ?_, fun t => rfl⟩
  rw [patch_overwritten_noop _ (by rfl) (by rfl)]

/-- Witness for the amended C2: after two installs on concrete
unwrapped prototypes, the first returned unpatch brings the state back
to the original functions. -/
theorem patch_idempotent_first_unpatch_restores_witness :
    (patchHTMLDynamicAppendPrototypeFunctions ⟨.raw 0, .raw 1, .raw 2, .raw 3, .raw 4⟩).2
      (patchHTMLDynamicAppendPrototypeFunctions
        (patchHTMLDynamicAppendPrototypeFunctions
          ⟨.raw 0, .raw 1, .raw 2, .raw 3, .raw 4⟩).1).1
      = ⟨.raw 0, .raw 1, .raw 2, .raw 3, .raw 4⟩ := by
  have h := patch_idempotent_first_unpatch_restores
    ⟨.raw 0, .raw 1, .raw 2, .raw 3, .raw 4⟩ (by decide)
  exact h.2.2 _

/-! ### Mutation interceptor theorems -/

/-- C6: for a node whose tag is not script/style/link
(case-insensitive), or for which the attribution oracle reports the
caller is not a micro-app, both the patched insert and the patched
remove delegate unchanged to the original operation on the original
target — same document effect, same returned result, no registry
update and no log. -/
theorem interceptor_pass_through {δ ε : Type}
    (raw : δ → Element → Element → Option Element → δ × Element)
    (isInvokedByMicroApp : Element → Bool)
    (getSandboxConfig : Element → Except ε (SandboxConfig ε))
    (target : DynamicDomMutationTarget)
    (contains : δ → Element → Option Element → Bool)
    (transpileAssets : Element → Option Sandbox → Element)
    (rawRemoveChild : δ → Option Element → Element → δ × Except ε Element)
    (parentNode : δ → Element → Option Element)
    (scriptMap linkMap : Element → Option Element)
    (dom : δ) (thisArg node : Element) (refChild : Option Element)
    (h : isHijackingTag (some node.tagName) = false ∨ isInvokedByMicroApp node = false) :
    appendChildOrInsertBefore ⟨raw, isInvokedByMicroApp, getSandboxConfig, target⟩
        contains transpileAssets dom thisArg node refChild =
      .ok ⟨(raw dom thisArg node refChild).1, (raw dom thisArg node refChild).2, none⟩ ∧
    removeChild rawRemoveChild getSandboxConfig isInvokedByMicroApp contains parentNode
        scriptMap linkMap dom thisArg node =
      ⟨[], (rawRemoveChild dom (some thisArg) node).1, none,
        (rawRemoveChild dom (some thisArg) node).2⟩ := by
  have hg : (!(isHijackingTag (some node.tagName)) || !(isInvokedByMicroApp node)) = true := by
    rcases h with h | h <;> simp [h]
  constructor
  · unfold appendChildOrInsertBefore
    simp only [hg]
    simp
  · unfold removeChild
    simp only [hg]
    simp

/-- Witness for C6: a `DIV` insertion and removal pass through
unchanged on concrete instantiations of the oracles. -/
theorem interceptor_pass_through_witness :
    (appendChildOrInsertBefore (δ := Unit) (ε := Unit)
        ⟨fun d _ c _ => (d, c), fun _ => true, fun _ => .error (), .head⟩
        (fun _ _ _ => false) (fun e _ => e) () ⟨0, "HEAD", none⟩ ⟨1, "DIV", none⟩ none =
      .ok ⟨(), ⟨1, "DIV", none⟩, none⟩) ∧
    (removeChild (δ := Unit) (ε := Unit) (fun d _ c => (d, .ok c)) (fun _ => .error ())
        (fun _ => true) (fun _ _ _ => false) (fun _ _ => none) (fun _ => none) (fun _ => none)
        () ⟨0, "HEAD", none⟩ ⟨1, "DIV", none⟩ =
      ⟨[], (), none, .ok ⟨1, "DIV", none⟩⟩) := by
  have h := interceptor_pass_through (δ := Unit) (ε := Unit)
    (fun d _ c _ => (d, c)) (fun _ => true) (fun _ => .error ()) .head
    (fun _ _ _ => false) (fun e _ => e) (fun d _ c => (d, .ok c)) (fun _ _ => none)
    (fun _ => none) (fun _ => none) () ⟨0, "HEAD", none⟩ ⟨1, "DIV", none⟩ none
    (Or.inl (by decide))
  exact h

/-- C7: a style/link node inserted by a micro-app into a shared region
is tagged with the targeted region, appended exactly once at the end of
the app's dynamic stylesheet registry, and handed to the original
insert operation with the app's container as target — not the shared
region — using the caller's reference node only when the container
contains it (`none`, i.e. append at the end, otherwise); the inserted
node is what the patched operation returns (given that the original
operation returns its inserted child). -/
theorem style_insert_redirected {δ ε : Type}
    (raw : δ → Element → Element → Option Element → δ × Element)
    (isInvokedByMicroApp : Element → Bool)
    (getSandboxConfig : Element → Except ε (SandboxConfig ε))
    (target : DynamicDomMutationTarget)
    (contains : δ → Element → Option Element → Bool)
    (transpileAssets : Element → Option Sandbox → Element)
    (dom : δ) (thisArg node : Element) (refChild : Option Element)
    (config : SandboxConfig ε) (container : Element)
    (htag : node.tagName = STYLE_TAG_NAME ∨ node.tagName = LINK_TAG_NAME)
    (hinv : isInvokedByMicroApp node = true)
    (hcfg : getSandboxConfig node = .ok config)
    (hc : config.getContainer () = .ok container)
    (hraw : ∀ d t c r, (raw d t c r).2 = c) :
    appendChildOrInsertBefore ⟨raw, isInvokedByMicroApp, getSandboxConfig, target⟩
        contains transpileAssets dom thisArg node refChild =
      .ok ⟨(raw dom container { node with styleElementTarget := some target }
              (if contains dom container refChild then refChild else none)).1,
           { node with styleElementTarget := some target },
           some (config.dynamicStyleSheetElements ++
             [{ node with styleElementTarget := some target }])⟩ := by
  have hh : isHijackingTag (some node.tagName) = true := by
    rcases htag with h | h <;> rw [h] <;> decide
  rcases htag with h | h <;>
    simp [appendChildOrInsertBefore, hh, hinv, hcfg, hc, h, hraw,
      STYLE_TAG_NAME, LINK_TAG_NAME, SCRIPT_TAG_NAME] <;> decide

/-- Witness for C7: a concrete style node, inserted into the shared
head by a micro-app, ends tagged, registered once, and rerouted to the
container. -/
theorem style_insert_redirected_witness :
    appendChildOrInsertBefore (δ := Unit) (ε := Unit)
        ⟨fun d _ c _ => (d, c), fun _ => true,
          fun _ => .ok ⟨fun _ => .ok ⟨100, "DIV", none⟩, [], none⟩, .head⟩
        (fun _ _ _ => false) (fun e _ => e) () ⟨0, "HEAD", none⟩ ⟨1, "STYLE", none⟩ none =
      .ok ⟨(), ⟨1, "STYLE", some .head⟩, some [⟨1, "STYLE", some .head⟩]⟩ := by
  have h := style_insert_redirected (δ := Unit) (ε := Unit)
    (fun d _ c _ => (d, c)) (fun _ => true)
    (fun _ => .ok ⟨fun _ => .ok ⟨100, "DIV", none⟩, [], none⟩) .head
    (fun _ _ _ => false) (fun e _ => e) () ⟨0, "HEAD", none⟩ ⟨1, "STYLE", none⟩ none
    ⟨fun _ => .ok ⟨100, "DIV", none⟩, [], none⟩ ⟨100, "DIV", none⟩
    (Or.inl rfl) rfl rfl rfl (fun _ _ _ _ => rfl)
  exact h

/-- C8: on the hijacked remove path, an error thrown while resolving
the sandbox configuration, obtaining the container, or removing the
attached artifact from its actual parent is caught and logged
(`console.warn`), after which the removal falls back to delegating to
the original remove on the original target — the interception logic
itself never propagates an exception to the caller. -/
theorem removeChild_never_propagates {δ ε : Type}
    (rawRemoveChild : δ → Option Element → Element → δ × Except ε Element)
    (containerConfigGetter : Element → Except ε (SandboxConfig ε))
    (isInvokedByMicroApp : Element → Bool)
    (contains : δ → Element → Option Element → Bool)
    (parentNode : δ → Element → Option Element)
    (scriptMap linkMap : Element → Option Element)
    (dom : δ) (thisArg child : Element)
    (hhij : isHijackingTag (some child.tagName) = true)
    (hinv : isInvokedByMicroApp child = true) :
    (∀ e : ε, containerConfigGetter child = .error e →
      removeChild rawRemoveChild containerConfigGetter isInvokedByMicroApp contains
          parentNode scriptMap linkMap dom thisArg child =
        ⟨[e], (rawRemoveChild dom (some thisArg) child).1, none,
          (rawRemoveChild dom (some thisArg) child).2⟩) ∧
    (∀ (e : ε) (config : SandboxConfig ε), containerConfigGetter child = .ok config →
      config.getContainer () = .error e →
      removeChild rawRemoveChild containerConfigGetter isInvokedByMicroApp contains
          parentNode scriptMap linkMap dom thisArg child =
        ⟨[e], (rawRemoveChild dom (some thisArg) child).1,
          (if child.tagName == STYLE_TAG_NAME || child.tagName == LINK_TAG_NAME then
            some (config.dynamicStyleSheetElements.erase
              (if child.tagName == STYLE_TAG_NAME || child.tagName == LINK_TAG_NAME then
                (linkMap child).getD child
              else if child.tagName == SCRIPT_TAG_NAME then (scriptMap child).getD child
              else child))
          else none),
          (rawRemoveChild dom (some thisArg) child).2⟩) ∧
    (∀ (e : ε) (config : SandboxConfig ε) (container attached : Element) (d' : δ),
      (if child.tagName == STYLE_TAG_NAME || child.tagName == LINK_TAG_NAME then
        (linkMap child).getD child
      else if child.tagName == SCRIPT_TAG_NAME then (scriptMap child).getD child
      else child) = attached →
      containerConfigGetter child = .ok config →
      config.getContainer () = .ok container →
      contains dom container (some attached) = true →
      rawRemoveChild dom (parentNode dom attached) attached = (d', .error e) →
      removeChild rawRemoveChild containerConfigGetter isInvokedByMicroApp contains
          parentNode scriptMap linkMap dom thisArg child =
        ⟨[e], (rawRemoveChild d' (some thisArg) child).1,
          (if child.tagName == STYLE_TAG_NAME || child.tagName == LINK_TAG_NAME then
            some (config.dynamicStyleSheetElements.erase attached)
          else none),
          (rawRemoveChild d' (some thisArg) child).2⟩) := by
  have hg : (!(isHijackingTag (some child.tagName)) || !(isInvokedByMicroApp child)) = false := by
    simp [hhij, hinv]
  refine ⟨?_, ?_, ?_⟩
  · intro e heq
    simp [removeChild, hg, heq]
  · intro e config hcg hc
    simp [removeChild, hg, hcg, hc]
  · intro e config container attached d' hA hcg hc hin hraw
    unfold removeChild
    simp only [hg, Bool.false_eq_true, if_false, reduceIte, hcg, hc]
    rw [hA]
    simp [hin, hraw]

/-- Witness for C8: a throwing attribution oracle on a style removal is
logged and the removal falls back to the original operation. -/
theorem removeChild_never_propagates_witness :
    removeChild (δ := Unit) (ε := String) (fun d _ c => (d, .ok c))
        (fun _ => .error "oracle failed") (fun _ => true) (fun _ _ _ => false)
        (fun _ _ => none) (fun _ => none) (fun _ => none)
        () ⟨0, "HEAD", none⟩ ⟨1, "STYLE", none⟩ =
      ⟨["oracle failed"], (), none, .ok ⟨1, "STYLE", none⟩⟩ := by
  have h := removeChild_never_propagates (δ := Unit) (ε := String)
    (fun d _ c => (d, .ok c)) (fun _ => .error "oracle failed") (fun _ => true)
    (fun _ _ _ => false) (fun _ _ => none) (fun _ => none) (fun _ => none)
    () ⟨0, "HEAD", none⟩ ⟨1, "STYLE", none⟩ (by decide) rfl
  exact h.1 "oracle failed" rfl

/-! ### Stylesheet rule preserver theorems -/

theorem insertRulesAppending_some (rules : List String) :
    ∀ live : List String, insertRulesAppending (some live) rules = .ok (some (live ++ rules)) := by
  induction rules with
  | nil => intro live; simp [insertRulesAppending]
  | cons r rs ih => intro live; simp [insertRulesAppending, ih]

/-- C9: replaying a rule-only style node (an `HTMLStyleElement` with
empty text content) after a successful reattachment that left it with
live rule list `live` appends each preserved rule's text — in original
order, at the end, keeping the existing rules — so the node ends with
`live ++ preserved`; and replay is a no-op for a node with no preserved
rule list. -/
theorem rebuildCSSRules_replay_spec :
    (∀ (m : CSSRulesMap) (reApp : StyleElement → Bool) (el : StyleElement)
        (live preserved : List String),
      reApp el = true → el.isHTMLStyleElement = true → el.textContent = "" →
      el.sheet = some live → getStyledElementCSSRules m el = some preserved →
      rebuildCSSRules [el] reApp m = .ok [{ el with sheet := some (live ++ preserved) }]) ∧
    (∀ (m : CSSRulesMap) (reApp : StyleElement → Bool) (el : StyleElement),
      getStyledElementCSSRules m el = none →
      rebuildCSSRules [el] reApp m = .ok [el]) := by
  constructor
  · intro m reApp el live preserved h1 h2 h3 h4 h5
    cases hlike : isStyledComponentsLike m el
    · have hempty : live = [] ∧ preserved = [] := by
        unfold isStyledComponentsLike at hlike
        simp [h3, h4, h5] at hlike
        exact ⟨hlike.1, hlike.2⟩
      obtain ⟨hl, hp⟩ := hempty
      subst hl; subst hp
      have heq : ({ el with sheet := some [] } : StyleElement) = el := by rw [← h4]
      unfold rebuildCSSRules
      simp [hlike, rebuildCSSRules, heq]
    · unfold rebuildCSSRules
      simp [h1, h2, hlike, h5, h4, insertRulesAppending_some, rebuildCSSRules]
  · intro m reApp el h5
    unfold rebuildCSSRules
    cases happ : reApp el
    · simp [happ, rebuildCSSRules]
    · cases hlike : isStyledComponentsLike m el
      · simp [happ, hlike, rebuildCSSRules]
      · simp [happ, hlike, h5, rebuildCSSRules]

/-- Witness for C9: a node with one live rule and two preserved rules
ends with the three rules in order. -/
theorem rebuildCSSRules_replay_spec_witness :
    rebuildCSSRules [⟨0, true, "", some ["a"]⟩] (fun _ => true) [(0, ["b", "c"])] =
      .ok [⟨0, true, "", some ["a", "b", "c"]⟩] := by
  have h := rebuildCSSRules_replay_spec.1 [(0, ["b", "c"])] (fun _ => true)
    ⟨0, true, "", some ["a"]⟩ ["a"] ["b", "c"] rfl rfl rfl rfl rfl
  exact h

end Qiankun
